import Mathlib

/-!
Shallow embedding of the fund-release governance core of the crowdfunding
repository, together with theorems settling the specification claims.

Sources embedded here:
* src/routes/api/usageRequests.js — off-chain usage-request governance
  (calculateUsageFinancials, maybeAutoApprove, the create / vote / mark-spent
  route handlers, the usage_votes upsert);
* src/CrowdFunding.sol — the authoritative contract (approveWithdrawal,
  rejectWithdrawal, executeWithdrawal);
* src/utils/blockchain.js canWithdrawFunds and
  src/utils/withdrawalHelper.js checkWithdrawalEligibility — eligibility;
* the background syncCampaignStatuses job — reconciliation of the mirror.

Monetary values handled by the JavaScript layer are modelled as rationals
(JS numbers used exactly on the inputs considered); Solidity uint256 values
are modelled as naturals, with Solidity 0.8 checked subtraction made
explicit at its use sites.
-/

namespace Crowdfunding

/-! ## Off-chain data model (SQLite rows used by usageRequests.js) -/

/-- usage_requests.status ∈ {PENDING, APPROVED, REJECTED, SPENT}. -/
inductive UStatus
  | PENDING
  | APPROVED
  | REJECTED
  | SPENT
deriving DecidableEq, Repr

/-- A usage_requests row (financially relevant columns; title, description,
category and document URL carry no weight in any claim and are omitted).
`actual = none` models a NULL actual_amount. -/
structure UsageRow where
  requested : ℚ
  actual : Option ℚ
  status : UStatus
deriving DecidableEq, Repr

/-- A usage_votes row: (usage_request_id, donor_id, vote, donated_amount).
The row's usage_request_id is the index of the request in the campaign's
request list. The wallet-address and timestamp columns are omitted. -/
structure VoteRow where
  requestId : ℕ
  donorId : ℕ
  vote : Bool
  weight : ℚ
deriving DecidableEq, Repr

/-- The state of one campaign's ledger: campaigns.current_amount, the
donations rows (donor_id, amount) for the campaign, the usage_requests rows
(list position = request id) and the usage_votes rows. `creatorId` is
campaigns.creator_id. Donations are append-only and fixed across the
operations considered by the claims. -/
structure LedgerState where
  raised : ℚ
  donations : List (ℕ × ℚ)
  requests : List UsageRow
  votes : List VoteRow
  creatorId : ℕ
deriving DecidableEq, Repr

/-- The authenticated caller: req.user.id and req.user.isAdmin. -/
structure User where
  id : ℕ
  isAdmin : Bool
deriving DecidableEq, Repr

/-! ## Ledger Accountant: calculateUsageFinancials -/

/-- Contribution of one row to summary.totalSpent: for SPENT rows the
actual amount, falling back to the requested amount when no actual was
recorded (`row.actual_amount != null ? actual : requested`). -/
def spentContrib (r : UsageRow) : ℚ :=
  if r.status = UStatus.SPENT then r.actual.getD r.requested else 0

/-- Contribution of one row to summary.totalApproved: the requested amount
for SPENT and APPROVED rows. -/
def approvedContrib (r : UsageRow) : ℚ :=
  if r.status = UStatus.SPENT ∨ r.status = UStatus.APPROVED then r.requested else 0

/-- Contribution of one row to summary.totalPending. -/
def pendingContrib (r : UsageRow) : ℚ :=
  if r.status = UStatus.PENDING then r.requested else 0

/-- The summary object computed by calculateUsageFinancials (category
subtotals omitted: no claim mentions them). -/
structure Summary where
  totalRaised : ℚ
  totalSpent : ℚ
  totalApproved : ℚ
  totalPending : ℚ
  outstandingApproved : ℚ
  remainingBalance : ℚ
deriving DecidableEq, Repr

/-- calculateUsageFinancials: recomputes the ledger summary from the raw
usage_requests rows.  outstandingApproved = max(totalApproved − totalSpent, 0);
committed = totalSpent + outstandingApproved + totalPending;
remainingBalance = max(totalRaised − committed, 0). -/
def calculateUsageFinancials (s : LedgerState) : Summary :=
  let spent := (s.requests.map spentContrib).sum
  let approved := (s.requests.map approvedContrib).sum
  let pending := (s.requests.map pendingContrib).sum
  let outstanding := max (approved - spent) 0
  let committed := spent + outstanding + pending
  { totalRaised := s.raised
    totalSpent := spent
    totalApproved := approved
    totalPending := pending
    outstandingApproved := outstanding
    remainingBalance := max (s.raised - committed) 0 }

/-! ## Donation summary and vote statistics -/

/-- getDonationSummary's totalDonors: COUNT(DISTINCT donor_id) over the
campaign's donations. -/
def totalDonors (s : LedgerState) : ℕ :=
  (s.donations.map Prod.fst).dedup.length

/-- getDonationSummary's totalAmount: COALESCE(SUM(amount), 0). -/
def totalDonated (s : LedgerState) : ℚ :=
  (s.donations.map Prod.snd).sum

/-- SUM(amount) over the campaign's donations by one donor (the voter's
live contribution, used as vote weight). -/
def donorSum (s : LedgerState) (uid : ℕ) : ℚ :=
  ((s.donations.filter (fun p => p.1 = uid)).map Prod.snd).sum

/-- isCampaignDonor: the caller's summed donations are > 0. -/
def isCampaignDonor (s : LedgerState) (uid : ℕ) : Bool :=
  decide (0 < donorSum s uid)

/-- Vote-stats approvals for one request: SUM(CASE WHEN vote = 1 THEN 1 END). -/
def approvalsCount (s : LedgerState) (rid : ℕ) : ℕ :=
  (s.votes.filter (fun v => v.requestId = rid ∧ v.vote = true)).length

/-- Vote-stats approved_weighted for one request:
SUM(CASE WHEN vote = 1 THEN donated_amount ELSE 0 END). -/
def approvedWeighted (s : LedgerState) (rid : ℕ) : ℚ :=
  ((s.votes.filter (fun v => v.requestId = rid ∧ v.vote = true)).map VoteRow.weight).sum

/-! ## Auto-approval evaluator: maybeAutoApprove -/

/-- donorApprovalRate = totalDonors > 0 ? approvals / totalDonors : 0. -/
def donorApprovalRate (s : LedgerState) (rid : ℕ) : ℚ :=
  if 0 < totalDonors s then (approvalsCount s rid : ℚ) / (totalDonors s : ℚ) else 0

/-- donationApprovalRate = totalAmount > 0 ? approved_weighted / totalAmount : 0. -/
def donationApprovalRate (s : LedgerState) (rid : ℕ) : ℚ :=
  if 0 < totalDonated s then approvedWeighted s rid / totalDonated s else 0

/-- maybeAutoApprove: a no-op unless the request exists and is PENDING and
the campaign has at least one distinct donor; otherwise flips the request to
APPROVED exactly when either approval rate is strictly above one half.
(An absent request makes fetchUsageRequest throw, leaving the store
untouched, so it is modelled as the identity.) -/
def maybeAutoApprove (s : LedgerState) (rid : ℕ) : LedgerState :=
  match s.requests[rid]? with
  | none => s
  | some r =>
    if r.status ≠ UStatus.PENDING then s
    else if totalDonors s = 0 then s
    else if 1/2 < donorApprovalRate s rid ∨ 1/2 < donationApprovalRate s rid then
      { s with requests := s.requests.set rid { r with status := UStatus.APPROVED } }
    else s

/-! ## Route handlers as operations on the ledger state -/

/-- The error classes surfaced by the route handlers. -/
inductive ApiError
  | badRequest (msg : String)
  | forbidden (msg : String)
  | notFound (msg : String)
deriving DecidableEq, Repr

/-- POST /api/usage-requests: validator requires requestedAmount > 0; only
the campaign owner (or an admin) may create; the amount may not exceed the
recomputed remainingBalance; persists a PENDING row with NULL actual_amount. -/
def createUsageRequest (s : LedgerState) (u : User) (requestedAmount : ℚ) :
    Except ApiError LedgerState :=
  if ¬ 0 < requestedAmount then
    Except.error (ApiError.badRequest "Requested amount must be a positive number")
  else if s.creatorId ≠ u.id ∧ u.isAdmin = false then
    Except.error (ApiError.forbidden "Only the campaign owner can create usage requests")
  else if (calculateUsageFinancials s).remainingBalance < requestedAmount then
    Except.error (ApiError.badRequest "Requested amount exceeds remaining available funds")
  else
    Except.ok { s with requests :=
      s.requests ++ [{ requested := requestedAmount, actual := none, status := UStatus.PENDING }] }

/-- INSERT ... ON CONFLICT(usage_request_id, donor_id) DO UPDATE: if a row
with the same key exists, its vote and donated_amount are overwritten,
otherwise the row is appended. -/
def upsertVote (votes : List VoteRow) (nv : VoteRow) : List VoteRow :=
  if votes.any (fun v => v.requestId = nv.requestId ∧ v.donorId = nv.donorId) then
    votes.map (fun v =>
      if v.requestId = nv.requestId ∧ v.donorId = nv.donorId then
        { v with vote := nv.vote, weight := nv.weight }
      else v)
  else votes ++ [nv]

/-- POST /api/usage-requests/:id/vote: the caller must be a campaign donor
or an admin; the recorded weight is the caller's live summed contribution;
the vote row is upserted and maybeAutoApprove then runs. -/
def voteUsageRequest (s : LedgerState) (u : User) (rid : ℕ) (voteValue : Bool) :
    Except ApiError LedgerState :=
  match s.requests[rid]? with
  | none => Except.error (ApiError.notFound "Usage request not found")
  | some _ =>
    if isCampaignDonor s u.id = false ∧ u.isAdmin = false then
      Except.error (ApiError.forbidden "Only donors can vote on usage requests")
    else
      let donatedAmount := donorSum s u.id
      let nv : VoteRow := ⟨rid, u.id, voteValue, donatedAmount⟩
      let s1 := { s with votes := upsertVote s.votes nv }
      Except.ok (maybeAutoApprove s1 rid)

/-- PATCH /api/usage-requests/:id/mark-spent: validator requires
actualAmount > 0 and a nonempty tx hash; only the owner or an admin; the
request must be APPROVED; actualAmount may not exceed the requested amount
nor remainingBalance + max(requested − normalizeNumber(actual_amount), 0)
by more than the 0.000001 slack (normalizeNumber maps NULL to 0). -/
def markSpent (s : LedgerState) (u : User) (rid : ℕ) (actualAmount : ℚ)
    (txHash : String) : Except ApiError LedgerState :=
  if ¬ 0 < actualAmount then
    Except.error (ApiError.badRequest "Actual amount must be a positive number")
  else if txHash = "" then
    Except.error (ApiError.badRequest "Transaction hash is required")
  else
    match s.requests[rid]? with
    | none => Except.error (ApiError.notFound "Usage request not found")
    | some r =>
      if s.creatorId ≠ u.id ∧ u.isAdmin = false then
        Except.error (ApiError.forbidden "Only the campaign owner can mark spending")
      else if r.status ≠ UStatus.APPROVED then
        Except.error (ApiError.badRequest "Only approved requests can be marked as spent")
      else if r.requested < actualAmount then
        Except.error (ApiError.badRequest "Actual amount cannot exceed the approved amount")
      else
        let available := (calculateUsageFinancials s).remainingBalance +
          max (r.requested - r.actual.getD 0) 0
        if available + 1/1000000 < actualAmount then
          Except.error (ApiError.badRequest "Actual amount exceeds available funds")
        else
          let r1 := { r with status := UStatus.SPENT, actual := some actualAmount }
          Except.ok { s with requests := s.requests.set rid r1 }

/-- The operations the conservation claim quantifies over. -/
inductive Op
  | create (u : User) (amount : ℚ)
  | vote (u : User) (rid : ℕ) (v : Bool)
  | markSpent (u : User) (rid : ℕ) (actual : ℚ) (txHash : String)

/-- Dispatch an operation to its route handler. -/
def applyOp (s : LedgerState) : Op → Except ApiError LedgerState
  | Op.create u a => createUsageRequest s u a
  | Op.vote u rid v => voteUsageRequest s u rid v
  | Op.markSpent u rid a h => Crowdfunding.markSpent s u rid a h

/-- The state after an operation: a rejected request leaves the store
unchanged (the handler returns an error response without writing). -/
def execOp (s : LedgerState) (op : Op) : LedgerState :=
  match applyOp s op with
  | Except.ok s1 => s1
  | Except.error _ => s

/-- States reachable from a fresh campaign (nonnegative raised total, no
usage requests, no votes) by any sequence of create / vote / mark-spent
operations. -/
inductive Reach : LedgerState → Prop
  | init (raised : ℚ) (creatorId : ℕ) (donations : List (ℕ × ℚ)) (h : 0 ≤ raised) :
      Reach { raised := raised, donations := donations, requests := [], votes := [],
              creatorId := creatorId }
  | step (s : LedgerState) (op : Op) : Reach s → Reach (execOp s op)

/-! ## Conservation invariant (Ledger Accountant) -/

/-- Row-level facts maintained by the operations: the requested amount is
nonnegative, and on a SPENT row the spent amount (actual, falling back to
requested) does not exceed the requested amount. -/
def RowOK (r : UsageRow) : Prop :=
  0 ≤ r.requested ∧ (r.status = UStatus.SPENT → r.actual.getD r.requested ≤ r.requested)

/-- Ledger invariant: every row is well formed and the committed requested
amounts (approved + pending) never exceed the raised total. -/
def Inv (s : LedgerState) : Prop :=
  (∀ r ∈ s.requests, RowOK r) ∧
  (s.requests.map approvedContrib).sum + (s.requests.map pendingContrib).sum ≤ s.raised

/-! ## Authoritative ledger: CrowdFunding.sol

Solidity uint256 values are modelled as ℕ (the claims involve no wraparound;
0.8 checked arithmetic reverts rather than wraps, and the one subtraction
guard is made explicit below). A call returns (true, s') on success and
(false, s) on revert: a revert discards every storage write, so the state
component of a failed call is the pre-call state. The explicit rollback in
the transfer-failure branch of executeWithdrawal is modelled literally, and
the atomicity theorem proves it restores the pre-call state. -/

/-- Ethereum addresses (opaque identities). -/
abbrev Addr := ℕ

/-- The Campaign struct (title and description omitted; they carry no
weight in any claim). -/
structure SolCampaign where
  creator : Addr
  goal : ℕ
  pledged : ℕ
  deadline : ℕ
  existsFlag : Bool
  withdrawn : Bool
  totalWithdrawn : ℕ

/-- The WithdrawalRequest struct (usageDetails omitted). -/
structure SolRequest where
  amount : ℕ
  approvalThreshold : ℕ
  approvalsReceived : ℕ
  rejectionReceived : ℕ
  executed : Bool
  existsFlag : Bool
  hasVoted : Addr → Bool

/-- Contract storage: campaigns, contributions, withdrawalRequests
mappings and the contract's ETH balance (mappings default-initialise, with
existsFlag distinguishing real entries, as in Solidity). -/
structure CFState where
  campaigns : ℕ → SolCampaign
  contributions : ℕ → Addr → ℕ
  withdrawalRequests : ℕ → ℕ → SolRequest
  balance : ℕ

/-- Storage write withdrawalRequests[cid][rid] := r. -/
def updReq (f : ℕ → ℕ → SolRequest) (cid rid : ℕ) (r : SolRequest) :
    ℕ → ℕ → SolRequest :=
  fun c i => if c = cid ∧ i = rid then r else f c i

/-- Storage write campaigns[cid] := c. -/
def updCamp (f : ℕ → SolCampaign) (cid : ℕ) (c : SolCampaign) : ℕ → SolCampaign :=
  fun i => if i = cid then c else f i

/-- approveWithdrawal: requires an existing campaign, a nonzero
contribution, an existing, non-executed request and no prior vote by the
sender; marks the sender as voted and adds the contribution weight to
approvalsReceived. -/
def approveWithdrawal (s : CFState) (sender : Addr) (cid rid : ℕ) : Bool × CFState :=
  if (s.campaigns cid).existsFlag = false then (false, s)
  else
    let contribution := s.contributions cid sender
    if contribution = 0 then (false, s)
    else
      let request := s.withdrawalRequests cid rid
      if request.existsFlag = false then (false, s)
      else if request.executed = true then (false, s)
      else if request.hasVoted sender = true then (false, s)
      else
        let r1 := { request with
          hasVoted := Function.update request.hasVoted sender true,
          approvalsReceived := request.approvalsReceived + contribution }
        (true, { s with withdrawalRequests := updReq s.withdrawalRequests cid rid r1 })

/-- rejectWithdrawal: same guards as approveWithdrawal, adding the weight
to rejectionReceived instead. -/
def rejectWithdrawal (s : CFState) (sender : Addr) (cid rid : ℕ) : Bool × CFState :=
  if (s.campaigns cid).existsFlag = false then (false, s)
  else
    let contribution := s.contributions cid sender
    if contribution = 0 then (false, s)
    else
      let request := s.withdrawalRequests cid rid
      if request.existsFlag = false then (false, s)
      else if request.executed = true then (false, s)
      else if request.hasVoted sender = true then (false, s)
      else
        let r1 := { request with
          hasVoted := Function.update request.hasVoted sender true,
          rejectionReceived := request.rejectionReceived + contribution }
        (true, { s with withdrawalRequests := updReq s.withdrawalRequests cid rid r1 })

/-- The storage state at the moment the external value transfer is
attempted inside executeWithdrawal: executed is already true and
totalWithdrawn already includes the request amount
(checks-effects-interactions). -/
def executeMidState (s : CFState) (cid rid : ℕ) : CFState :=
  let c := s.campaigns cid
  let request := s.withdrawalRequests cid rid
  { s with
    withdrawalRequests := updReq s.withdrawalRequests cid rid { request with executed := true },
    campaigns := updCamp s.campaigns cid
      { c with totalWithdrawn := c.totalWithdrawn + request.amount } }

/-- executeWithdrawal: guards (creator, existing non-executed request,
approvals ≥ threshold, contract and campaign balances cover the amount),
then effects-before-interaction; on a failed transfer the manual rollback
(executed := false, totalWithdrawn -= amount) runs and the call reverts.
The transfer outcome is a predicate of the state at call time. -/
def executeWithdrawal (s : CFState) (sender : Addr) (cid rid : ℕ)
    (transferOk : CFState → Bool) : Bool × CFState :=
  if (s.campaigns cid).existsFlag = false then (false, s)
  else
    let c := s.campaigns cid
    if sender ≠ c.creator then (false, s)
    else
      let request := s.withdrawalRequests cid rid
      if request.existsFlag = false then (false, s)
      else if request.executed = true then (false, s)
      else if request.approvalsReceived < request.approvalThreshold then (false, s)
      else if s.balance < request.amount then (false, s)
      -- require(c.pledged - c.totalWithdrawn >= request.amount): 0.8 checked
      -- subtraction reverts on underflow, so the require passes exactly when
      -- totalWithdrawn + amount ≤ pledged
      else if c.pledged < c.totalWithdrawn + request.amount then (false, s)
      else
        let s1 := executeMidState s cid rid
        if transferOk s1 then (true, { s1 with balance := s1.balance - request.amount })
        else
          let r2 := { s1.withdrawalRequests cid rid with executed := false }
          let c2 := { s1.campaigns cid with
            totalWithdrawn := (s1.campaigns cid).totalWithdrawn - request.amount }
          (false, { s1 with
            withdrawalRequests := updReq s1.withdrawalRequests cid rid r2,
            campaigns := updCamp s1.campaigns cid c2 })

/-- A campaign used by the concrete authoritative-path scenarios: creator 7,
goal and pledged total 100, nothing withdrawn yet. -/
def exCamp : SolCampaign :=
  { creator := 7, goal := 100, pledged := 100, deadline := 0, existsFlag := true,
    withdrawn := false, totalWithdrawn := 0 }

/-- A withdrawal request of 10 at the Scenario C threshold 51, with the
given accumulated weighted approvals. -/
def exReq (appr : ℕ) : SolRequest :=
  { amount := 10, approvalThreshold := 51, approvalsReceived := appr,
    rejectionReceived := 0, executed := false, existsFlag := true,
    hasVoted := fun _ => false }

/-- Contract storage holding exCamp and exReq appr everywhere, donor 3
having contributed 40, and a contract balance of 100. -/
def exState (appr : ℕ) : CFState :=
  { campaigns := fun _ => exCamp, contributions := fun _ a => if a = 3 then 40 else 0,
    withdrawalRequests := fun _ _ => exReq appr, balance := 100 }

/-! ## Eligibility checkers

src/utils/blockchain.js getCampaignFromBlockchain builds an object with
properties goal, pledged, deadline (a Date) and withdrawn; amounts are
ether values (strings parsed with parseFloat), modelled as ℚ, and instants
as millisecond integers. canWithdrawFunds (same file) reads pledged /
withdrawn; checkWithdrawalEligibility (src/utils/withdrawalHelper.js)
instead reads amountRaised and isWithdrawn, properties this object does
not carry, so in JavaScript those reads produce undefined:
undefined >= goal evaluates to false and !undefined to true. -/

/-- The object returned by getCampaignFromBlockchain (identity and text
fields omitted). -/
structure FetchedCampaign where
  goal : ℚ
  pledged : ℚ
  deadlineMs : ℤ
  withdrawn : Bool
deriving DecidableEq, Repr

/-- The record canWithdrawFunds returns. -/
structure WithdrawCheck where
  canWithdraw : Bool
  goalReached : Bool
  deadlinePassed : Bool
  isWithdrawn : Bool
  amountRaised : ℚ
  goal : ℚ
deriving DecidableEq, Repr

/-- JavaScript x >= y where x may be undefined (undefined compares false). -/
def jsGeUndef (a : Option ℚ) (b : ℚ) : Bool :=
  match a with
  | some x => decide (b ≤ x)
  | none => false

/-- JavaScript truthiness of a possibly-undefined boolean. -/
def jsTruthy (v : Option Bool) : Bool :=
  match v with
  | some b => b
  | none => false

/-- canWithdrawFunds: goal reached and not withdrawn; the deadline is
deliberately not part of the verdict (the fast path for completed
campaigns), but is still reported as a sub-condition. -/
def canWithdrawFunds (c : FetchedCampaign) (nowMs : ℤ) : WithdrawCheck :=
  let amountRaised := c.pledged
  let goal := c.goal
  { canWithdraw := decide (goal ≤ amountRaised) && !c.withdrawn
    goalReached := decide (goal ≤ amountRaised)
    deadlinePassed := decide (c.deadlineMs ≤ nowMs)
    isWithdrawn := c.withdrawn
    amountRaised := amountRaised
    goal := goal }

/-- The withdrawalStatus record checkWithdrawalEligibility returns;
isWithdrawn mirrors the undefined campaign.isWithdrawn read. -/
structure EligStatus where
  goalReached : Bool
  deadlinePassed : Bool
  isWithdrawn : Option Bool
  canWithdraw : Bool
deriving DecidableEq, Repr

/-- checkWithdrawalEligibility: computes
(amountRaised >= goal) && (now >= deadline) && !campaign.isWithdrawn, but
campaign.amountRaised and campaign.isWithdrawn are not properties of the
object getCampaignFromBlockchain builds (it carries pledged / withdrawn),
so both reads yield undefined. -/
def checkWithdrawalEligibility (c : FetchedCampaign) (nowMs : ℤ) : EligStatus :=
  let amountRaised : Option ℚ := none
  let isWithdrawnRead : Option Bool := none
  { goalReached := jsGeUndef amountRaised c.goal
    deadlinePassed := decide (c.deadlineMs ≤ nowMs)
    isWithdrawn := isWithdrawnRead
    canWithdraw := jsGeUndef amountRaised c.goal && decide (c.deadlineMs ≤ nowMs) &&
      !jsTruthy isWithdrawnRead }

/-- A campaign whose goal of 50 is covered by a pledged 100, not yet
withdrawn, with its deadline at t = 2000 ms. -/
def eligCexCampaign : FetchedCampaign :=
  { goal := 50, pledged := 100, deadlineMs := 2000, withdrawn := false }

/-! ## Reconciliation sync: syncCampaignStatuses -/

/-- The authoritative campaign state fetched during a sync pass (wei
amounts, a unix-second deadline). -/
structure ChainCampaign where
  goal : ℕ
  pledged : ℕ
  deadline : ℕ
  withdrawn : Bool
  existsFlag : Bool
deriving DecidableEq, Repr

/-- The mirrored columns the sync overwrites: blockchain_goal,
current_amount, deadline, status, is_withdrawn. -/
structure MirrorRow where
  blockchain_goal : ℚ
  current_amount : ℚ
  deadlineMs : ℤ
  status : String
  is_withdrawn : Bool
deriving DecidableEq, Repr

/-- One iteration of the syncCampaignStatuses loop: when the fetched
campaign exists, convert wei to ETH, derive the status (withdrawn ⇒
completed; deadline passed ⇒ completed if the goal is met else failed;
otherwise active) and overwrite the mirrored row; a non-existing campaign
leaves the row untouched. -/
def syncOne (bc : ChainCampaign) (nowMs : ℤ) (row : MirrorRow) : MirrorRow :=
  if bc.existsFlag then
    let goal : ℚ := (bc.goal : ℚ) / 10 ^ 18
    let pledged : ℚ := (bc.pledged : ℚ) / 10 ^ 18
    let deadlineMs : ℤ := (bc.deadline : ℤ) * 1000
    let deadlinePassed := deadlineMs < nowMs
    let goalMet := goal ≤ pledged
    let status := if bc.withdrawn then "completed"
      else if deadlinePassed then (if goalMet then "completed" else "failed")
      else "active"
    { blockchain_goal := goal, current_amount := pledged, deadlineMs := deadlineMs,
      status := status, is_withdrawn := bc.withdrawn }
  else row

/-- The fetched state used by the sync witness: deadline second 1, pledged
40 of a 100 goal, not withdrawn. -/
def syncCexChain : ChainCampaign :=
  { goal := 100, pledged := 40, deadline := 1, withdrawn := false, existsFlag := true }

/-- An arbitrary pre-sync mirror row. -/
def syncCexRow : MirrorRow :=
  { blockchain_goal := 0, current_amount := 0, deadlineMs := 0, status := "active",
    is_withdrawn := false }

lemma spentContrib_le_approvedContrib (r : UsageRow) (h : RowOK r) :
    spentContrib r ≤ approvedContrib r := by
  rcases h with ⟨h0, hs⟩
  rcases r with ⟨req, act, st⟩
  cases st <;> simp_all [spentContrib, approvedContrib]

lemma pendingContrib_nonneg (r : UsageRow) (h : RowOK r) : 0 ≤ pendingContrib r := by
  unfold pendingContrib
  split <;> simp [h.1]

lemma spent_le_approved (l : List UsageRow) (h : ∀ r ∈ l, RowOK r) :
    (l.map spentContrib).sum ≤ (l.map approvedContrib).sum :=
  List.sum_le_sum (fun r hr => spentContrib_le_approvedContrib r (h r hr))

lemma sum_map_set (f : UsageRow → ℚ) :
    ∀ (l : List UsageRow) (i : ℕ) (r x : UsageRow), l[i]? = some r →
      ((l.set i x).map f).sum = (l.map f).sum - f r + f x := by
  intro l
  induction l with
  | nil => intro i r x h; simp at h
  | cons a t ih =>
    intro i r x h
    cases i with
    | zero =>
      simp only [List.getElem?_cons_zero, Option.some.injEq] at h
      subst h
      simp [List.set]
      ring
    | succ n =>
      simp only [List.getElem?_cons_succ] at h
      simp only [List.set_cons_succ, List.map_cons, List.sum_cons, ih n r x h]
      ring

/-- Under the invariant the two max operations in the summary are exact
subtractions. -/
lemma summary_exact (s : LedgerState) (h : Inv s) :
    (calculateUsageFinancials s).outstandingApproved =
      (s.requests.map approvedContrib).sum - (s.requests.map spentContrib).sum ∧
    (calculateUsageFinancials s).remainingBalance =
      s.raised - ((s.requests.map approvedContrib).sum + (s.requests.map pendingContrib).sum) := by
  rcases h with ⟨hrows, hcommit⟩
  have hSA := spent_le_approved s.requests hrows
  unfold calculateUsageFinancials
  have h1 : max ((s.requests.map approvedContrib).sum -
      (s.requests.map spentContrib).sum) 0 =
      (s.requests.map approvedContrib).sum - (s.requests.map spentContrib).sum :=
    max_eq_left (by linarith)
  constructor
  · simp only
    exact h1
  · simp only
    rw [h1, max_eq_left (by linarith)]
    ring

/-- Setting a row to a replacement with the same committed contribution and
a well-formed shape preserves the invariant. -/
lemma inv_set (s : LedgerState) (rid : ℕ) (r x : UsageRow)
    (hget : s.requests[rid]? = some r) (hinv : Inv s) (hok : RowOK x)
    (hcommit : approvedContrib x + pendingContrib x = approvedContrib r + pendingContrib r) :
    Inv { s with requests := s.requests.set rid x } := by
  rcases hinv with ⟨hrows, hsum⟩
  constructor
  · intro r2 hr2
    rcases List.mem_or_eq_of_mem_set hr2 with hmem | rfl
    · exact hrows r2 hmem
    · exact hok
  · simp only
    rw [sum_map_set approvedContrib s.requests rid r x hget,
        sum_map_set pendingContrib s.requests rid r x hget]
    linarith

lemma inv_maybeAutoApprove (s : LedgerState) (rid : ℕ) (h : Inv s) :
    Inv (maybeAutoApprove s rid) := by
  cases hget : s.requests[rid]? with
  | none => simp only [maybeAutoApprove, hget]; exact h
  | some r =>
    simp only [maybeAutoApprove, hget]
    by_cases hpend : r.status ≠ UStatus.PENDING
    · rw [if_pos hpend]; exact h
    · rw [if_neg hpend]
      push_neg at hpend
      by_cases hd : totalDonors s = 0
      · rw [if_pos hd]; exact h
      · rw [if_neg hd]
        by_cases hrate : 1/2 < donorApprovalRate s rid ∨ 1/2 < donationApprovalRate s rid
        · rw [if_pos hrate]
          have hmem : r ∈ s.requests := by
            obtain ⟨hlt, rfl⟩ := List.getElem?_eq_some.mp hget
            exact List.getElem_mem hlt
          have hok := h.1 r hmem
          refine inv_set s rid r _ hget h ⟨hok.1, by intro hc; simp at hc⟩ ?_
          simp [approvedContrib, pendingContrib, hpend]
        · rw [if_neg hrate]; exact h

/-- Characterization of a successful create: the validator accepted a
positive amount within the remaining balance and one PENDING row with NULL
actual_amount was appended. -/
lemma create_ok (s : LedgerState) (u : User) (a : ℚ) (s1 : LedgerState)
    (h : createUsageRequest s u a = Except.ok s1) :
    0 < a ∧ a ≤ (calculateUsageFinancials s).remainingBalance ∧
    s1 = { s with requests :=
      s.requests ++ [{ requested := a, actual := none, status := UStatus.PENDING }] } := by
  unfold createUsageRequest at h
  split at h
  · simp at h
  · split at h
    · simp at h
    · split at h
      · simp at h
      · rename_i h0 _ hrem
        push_neg at h0 hrem
        cases h
        exact ⟨h0, hrem, rfl⟩

/-- Characterization of a successful mark-spent: the request existed and
was APPROVED, the actual amount is positive and bounded by the requested
amount, and the row was rewritten to SPENT with that actual amount. -/
lemma markSpent_ok (s : LedgerState) (u : User) (rid : ℕ) (a : ℚ) (hash : String)
    (s1 : LedgerState) (h : markSpent s u rid a hash = Except.ok s1) :
    ∃ r, s.requests[rid]? = some r ∧ r.status = UStatus.APPROVED ∧ 0 < a ∧
      a ≤ r.requested ∧
      s1 = { s with requests :=
        s.requests.set rid { r with status := UStatus.SPENT, actual := some a } } := by
  cases hget : s.requests[rid]? with
  | none => simp only [markSpent, hget] at h; split at h; · simp at h
            split at h <;> simp at h
  | some r =>
    simp only [markSpent, hget] at h
    split at h
    · simp at h
    split at h
    · simp at h
    split at h
    · simp at h
    split at h
    · simp at h
    split at h
    · simp at h
    split at h
    · simp at h
    rename_i hna _ _ hstat hlt _
    push_neg at hna hstat hlt
    simp only [Except.ok.injEq] at h
    exact ⟨r, rfl, hstat, hna, hlt, h.symm⟩

/-- Characterization of a successful vote: the store after the call is
maybeAutoApprove applied to the state with the upserted vote row. -/
lemma vote_ok (s : LedgerState) (u : User) (rid : ℕ) (v : Bool) (s1 : LedgerState)
    (h : voteUsageRequest s u rid v = Except.ok s1) :
    s1 = maybeAutoApprove
      { s with votes := upsertVote s.votes ⟨rid, u.id, v, donorSum s u.id⟩ } rid := by
  cases hget : s.requests[rid]? with
  | none => simp only [voteUsageRequest, hget] at h; simp at h
  | some r =>
    simp only [voteUsageRequest, hget] at h
    split at h
    · simp at h
    simp only [Except.ok.injEq] at h
    exact h.symm

/-- The invariant only depends on the requests and the raised total. -/
lemma inv_votes (s : LedgerState) (v : List VoteRow) :
    Inv { s with votes := v } ↔ Inv s := Iff.rfl

lemma inv_execOp (s : LedgerState) (op : Op) (h : Inv s) : Inv (execOp s op) := by
  cases hap : applyOp s op with
  | error e => simp [execOp, hap, h]
  | ok s1 =>
    have hx : execOp s op = s1 := by simp [execOp, hap]
    rw [hx]
    cases op with
    | create u a =>
      obtain ⟨h0, hrem, rfl⟩ := create_ok s u a s1 hap
      rcases h with ⟨hrows, hsum⟩
      have hSA := spent_le_approved s.requests hrows
      have hrem2 : (calculateUsageFinancials s).remainingBalance =
          s.raised - ((s.requests.map approvedContrib).sum +
            (s.requests.map pendingContrib).sum) :=
        (summary_exact s ⟨hrows, hsum⟩).2
      constructor
      · intro r2 hr2
        rcases List.mem_append.mp hr2 with hmem | hmem
        · exact hrows r2 hmem
        · simp at hmem
          subst hmem
          exact ⟨le_of_lt h0, by intro hc; simp at hc⟩
      · simp only [List.map_append, List.sum_append, List.map_cons, List.map_nil,
          List.sum_cons, List.sum_nil]
        simp [approvedContrib, pendingContrib]
        rw [hrem2] at hrem
        linarith
    | vote u rid v =>
      rw [vote_ok s u rid v s1 hap]
      exact inv_maybeAutoApprove _ rid ((inv_votes s _).mpr h)
    | markSpent u rid a hash =>
      obtain ⟨r, hget, hstat, h0, hle, rfl⟩ := markSpent_ok s u rid a hash s1 hap
      refine inv_set s rid r _ hget h ?_ ?_
      · refine ⟨(h.1 r ?_).1, ?_⟩
        · obtain ⟨hlt, rfl⟩ := List.getElem?_eq_some.mp hget
          exact List.getElem_mem hlt
        · intro _
          simpa using hle
      · simp [approvedContrib, pendingContrib, hstat]

lemma reach_inv (s : LedgerState) (h : Reach s) : Inv s := by
  induction h with
  | init raised creatorId donations hr =>
    constructor
    · intro r hr2; simp at hr2
    · simpa using hr
  | step s op _ ih => exact inv_execOp s op ih

/-- C1: for every campaign, after any sequence of usage-request create,
vote, and mark-spent operations, the ledger summary recomputed by
calculateUsageFinancials satisfies
totalSpent + outstandingApproved + totalPending + remainingBalance
= totalRaised, where outstandingApproved = max(totalApproved − totalSpent, 0)
and remainingBalance = max(totalRaised − (totalSpent + outstandingApproved +
totalPending), 0), and remainingBalance is never negative. -/
theorem conservation_after_ops (s : LedgerState) (h : Reach s) :
    (calculateUsageFinancials s).totalSpent +
      (calculateUsageFinancials s).outstandingApproved +
      (calculateUsageFinancials s).totalPending +
      (calculateUsageFinancials s).remainingBalance =
      (calculateUsageFinancials s).totalRaised ∧
    (calculateUsageFinancials s).outstandingApproved =
      max ((calculateUsageFinancials s).totalApproved -
        (calculateUsageFinancials s).totalSpent) 0 ∧
    (calculateUsageFinancials s).remainingBalance =
      max ((calculateUsageFinancials s).totalRaised -
        ((calculateUsageFinancials s).totalSpent +
         (calculateUsageFinancials s).outstandingApproved +
         (calculateUsageFinancials s).totalPending)) 0 ∧
    0 ≤ (calculateUsageFinancials s).remainingBalance := by
  have hinv := reach_inv s h
  obtain ⟨hout, hrem⟩ := summary_exact s hinv
  refine ⟨?_, by rfl, by rfl, ?_⟩
  · have hspent : (calculateUsageFinancials s).totalSpent =
        (s.requests.map spentContrib).sum := rfl
    have hpend : (calculateUsageFinancials s).totalPending =
        (s.requests.map pendingContrib).sum := rfl
    have hraised : (calculateUsageFinancials s).totalRaised = s.raised := rfl
    rw [hspent, hpend, hraised] at *
    rw [hout, hrem]
    ring
  · exact le_max_right _ _

/-- C1 witness: the conservation identity instantiated on a concrete
freshly-created campaign with a raised total of 100. -/
theorem conservation_after_ops_witness :
    (calculateUsageFinancials
        { raised := 100, donations := [(1, 60), (2, 40)], requests := [], votes := [],
          creatorId := 7 }).totalSpent +
      (calculateUsageFinancials
        { raised := 100, donations := [(1, 60), (2, 40)], requests := [], votes := [],
          creatorId := 7 }).outstandingApproved +
      (calculateUsageFinancials
        { raised := 100, donations := [(1, 60), (2, 40)], requests := [], votes := [],
          creatorId := 7 }).totalPending +
      (calculateUsageFinancials
        { raised := 100, donations := [(1, 60), (2, 40)], requests := [], votes := [],
          creatorId := 7 }).remainingBalance =
      (calculateUsageFinancials
        { raised := 100, donations := [(1, 60), (2, 40)], requests := [], votes := [],
          creatorId := 7 }).totalRaised :=
  (conservation_after_ops _ (Reach.init 100 7 [(1, 60), (2, 40)] (by norm_num))).1

/-! ## Threshold law, zero-donor guard, admin voting -/

/-- With at least one distinct donor and a nonnegative donated total, the
guarded rates computed by maybeAutoApprove agree with the plain quotients
(in ℚ, division by a zero total is 0, exactly the code's guard value). -/
lemma rates_eq_div (s : LedgerState) (rid : ℕ) (hd : 1 ≤ totalDonors s)
    (hw : 0 ≤ totalDonated s) :
    donorApprovalRate s rid = (approvalsCount s rid : ℚ) / (totalDonors s : ℚ) ∧
    donationApprovalRate s rid = approvedWeighted s rid / totalDonated s := by
  constructor
  · unfold donorApprovalRate
    rw [if_pos (by omega)]
  · unfold donationApprovalRate
    rcases lt_or_eq_of_le hw with hlt | heq
    · rw [if_pos hlt]
    · rw [if_neg (by rw [← heq]; exact lt_irrefl 0), ← heq, div_zero]

/-- maybeAutoApprove only ever rewrites the requests list. -/
lemma maybeAutoApprove_frame (s : LedgerState) (rid : ℕ) :
    (maybeAutoApprove s rid).votes = s.votes ∧
    (maybeAutoApprove s rid).donations = s.donations ∧
    (maybeAutoApprove s rid).raised = s.raised := by
  cases hget : s.requests[rid]? with
  | none => simp [maybeAutoApprove, hget]
  | some r =>
    simp only [maybeAutoApprove, hget]
    by_cases hpend : r.status ≠ UStatus.PENDING
    · rw [if_pos hpend]; exact ⟨rfl, rfl, rfl⟩
    · rw [if_neg hpend]
      by_cases hdz : totalDonors s = 0
      · rw [if_pos hdz]; exact ⟨rfl, rfl, rfl⟩
      · rw [if_neg hdz]
        split <;> exact ⟨rfl, rfl, rfl⟩

/-- C2: for every PENDING usage request on a campaign with at least one
donor, maybeAutoApprove moves the request to APPROVED iff
approvals / totalDistinctDonors > 1/2 or approvedWeighted / totalDonated
> 1/2; when both quotients are exactly 1/2 nothing changes, and the
evaluator is a no-op on any request whose status is not PENDING. -/
theorem maybeAutoApprove_threshold_law (s : LedgerState) (rid : ℕ) (r : UsageRow) :
    (s.requests[rid]? = some r → r.status = UStatus.PENDING → 1 ≤ totalDonors s →
      0 ≤ totalDonated s →
      (((maybeAutoApprove s rid).requests[rid]? =
          some { r with status := UStatus.APPROVED }) ↔
        ((1 : ℚ)/2 < (approvalsCount s rid : ℚ) / (totalDonors s : ℚ) ∨
         (1 : ℚ)/2 < approvedWeighted s rid / totalDonated s)) ∧
      ((approvalsCount s rid : ℚ) / (totalDonors s : ℚ) = 1/2 →
        approvedWeighted s rid / totalDonated s = 1/2 →
        maybeAutoApprove s rid = s)) ∧
    (s.requests[rid]? = some r → r.status ≠ UStatus.PENDING →
      maybeAutoApprove s rid = s) := by
  constructor
  · intro hget hpend hd hw
    have hlt : rid < s.requests.length := (List.getElem?_eq_some.mp hget).1
    obtain ⟨h1, h2⟩ := rates_eq_div s rid hd hw
    have hdz : ¬ totalDonors s = 0 := by omega
    have hne : ¬ r.status ≠ UStatus.PENDING := by simp [hpend]
    constructor
    · by_cases hcond : 1/2 < donorApprovalRate s rid ∨ 1/2 < donationApprovalRate s rid
      · refine iff_of_true ?_ ?_
        · simp only [maybeAutoApprove, hget]
          rw [if_neg hne, if_neg hdz, if_pos hcond]
          simp only
          rw [List.getElem?_set_self]
          exact hlt
        · rw [← h1, ← h2]; exact hcond
      · refine iff_of_false ?_ ?_
        · simp only [maybeAutoApprove, hget]
          rw [if_neg hne, if_neg hdz, if_neg hcond, hget]
          intro hEq
          rcases r with ⟨req, act, st⟩
          simp only [Option.some.injEq, UsageRow.mk.injEq] at hEq
          simp at hpend
          rw [hpend] at hEq
          exact absurd hEq.2.2 (by intro hc; cases hc)
        · rw [← h1, ← h2]; exact hcond
    · intro e1 e2
      have hcond : ¬ (1/2 < donorApprovalRate s rid ∨ 1/2 < donationApprovalRate s rid) := by
        rw [h1, h2, e1, e2]
        simp
      simp only [maybeAutoApprove, hget]
      rw [if_neg hne, if_neg hdz, if_neg hcond]
  · intro hget hpend
    simp only [maybeAutoApprove, hget]
    rw [if_pos hpend]

/-- C2 witness: one donor of 10 who approves a pending request; the donor
rate 1/1 exceeds 1/2 and the request is auto-approved. -/
theorem maybeAutoApprove_threshold_law_witness :
    (maybeAutoApprove
      { raised := 100, donations := [(1, 10)],
        requests := [{ requested := 5, actual := none, status := UStatus.PENDING }],
        votes := [⟨0, 1, true, 10⟩], creatorId := 0 } 0).requests[0]? =
      some { requested := 5, actual := none, status := UStatus.APPROVED } :=
  ((maybeAutoApprove_threshold_law
      { raised := 100, donations := [(1, 10)],
        requests := [{ requested := 5, actual := none, status := UStatus.PENDING }],
        votes := [⟨0, 1, true, 10⟩], creatorId := 0 } 0
      { requested := 5, actual := none, status := UStatus.PENDING }).1
    rfl rfl (by norm_num [totalDonors]) (by norm_num [totalDonated])).1.mpr
    (Or.inl (by norm_num [approvalsCount, totalDonors, List.filter]))

/-- C10: on a campaign with zero distinct donors maybeAutoApprove returns
the state unchanged (no rate is computed and no request can be approved). -/
theorem maybeAutoApprove_no_donors (s : LedgerState) (rid : ℕ)
    (h : totalDonors s = 0) : maybeAutoApprove s rid = s := by
  cases hget : s.requests[rid]? with
  | none => simp [maybeAutoApprove, hget]
  | some r =>
    simp only [maybeAutoApprove, hget]
    by_cases hpend : r.status ≠ UStatus.PENDING
    · rw [if_pos hpend]
    · rw [if_neg hpend, if_pos h]

/-- C10 witness: a pending request on a campaign with no donations is left
untouched even though a (stray) approving vote row exists. -/
theorem maybeAutoApprove_no_donors_witness :
    maybeAutoApprove
      { raised := 50, donations := [],
        requests := [{ requested := 10, actual := none, status := UStatus.PENDING }],
        votes := [⟨0, 3, true, 0⟩], creatorId := 1 } 0 =
      { raised := 50, donations := [],
        requests := [{ requested := 10, actual := none, status := UStatus.PENDING }],
        votes := [⟨0, 3, true, 0⟩], creatorId := 1 } :=
  maybeAutoApprove_no_donors _ 0 rfl

/-- C9: an administrator with zero lifetime contribution passes the vote
authorization and has a vote row recorded with donated_amount 0; such a
vote is counted in the approvals numerator but not in the distinct-donor
denominator, so on a concrete campaign with one donor and one approving
admin the donor approval rate is 2, exceeding 1. -/
theorem admin_zero_weight_vote :
    (∀ (s : LedgerState) (u : User) (rid : ℕ) (v : Bool) (r : UsageRow),
      s.requests[rid]? = some r → u.isAdmin = true → donorSum s u.id = 0 →
      voteUsageRequest s u rid v =
        Except.ok (maybeAutoApprove
          { s with votes := upsertVote s.votes ⟨rid, u.id, v, 0⟩ } rid)) ∧
    upsertVote [⟨0, 1, true, 50⟩] ⟨0, 2, true, 0⟩ =
      [⟨0, 1, true, 50⟩, ⟨0, 2, true, 0⟩] ∧
    approvalsCount
      { raised := 100, donations := [(1, 50)],
        requests := [{ requested := 100, actual := none, status := UStatus.PENDING }],
        votes := [⟨0, 1, true, 50⟩, ⟨0, 2, true, 0⟩], creatorId := 9 } 0 = 2 ∧
    totalDonors
      { raised := 100, donations := [(1, 50)],
        requests := [{ requested := 100, actual := none, status := UStatus.PENDING }],
        votes := [⟨0, 1, true, 50⟩, ⟨0, 2, true, 0⟩], creatorId := 9 } = 1 ∧
    donorApprovalRate
      { raised := 100, donations := [(1, 50)],
        requests := [{ requested := 100, actual := none, status := UStatus.PENDING }],
        votes := [⟨0, 1, true, 50⟩, ⟨0, 2, true, 0⟩], creatorId := 9 } 0 = 2 ∧
    (1 : ℚ) < donorApprovalRate
      { raised := 100, donations := [(1, 50)],
        requests := [{ requested := 100, actual := none, status := UStatus.PENDING }],
        votes := [⟨0, 1, true, 50⟩, ⟨0, 2, true, 0⟩], creatorId := 9 } 0 := by
  refine ⟨?_, ?_, ?_, ?_, ?_, ?_⟩
  · intro s u rid v r hget hadm hzero
    simp only [voteUsageRequest, hget]
    rw [if_neg (by simp [hadm]), hzero]
  · simp [upsertVote]
  · norm_num [approvalsCount, List.filter]
  · norm_num [totalDonors]
  · norm_num [donorApprovalRate, totalDonors, approvalsCount, List.filter]
  · norm_num [donorApprovalRate, totalDonors, approvalsCount, List.filter]

/-- C9 witness: the admin-vote clause applied to the concrete one-donor
campaign with admin user 2 holding no donation. -/
theorem admin_zero_weight_vote_witness :
    voteUsageRequest
      { raised := 100, donations := [(1, 50)],
        requests := [{ requested := 100, actual := none, status := UStatus.PENDING }],
        votes := [⟨0, 1, true, 50⟩], creatorId := 9 } ⟨2, true⟩ 0 true =
      Except.ok (maybeAutoApprove
        { raised := 100, donations := [(1, 50)],
          requests := [{ requested := 100, actual := none, status := UStatus.PENDING }],
          votes := upsertVote [⟨0, 1, true, 50⟩] ⟨0, 2, true, 0⟩, creatorId := 9 } 0) :=
  admin_zero_weight_vote.1
    { raised := 100, donations := [(1, 50)],
      requests := [{ requested := 100, actual := none, status := UStatus.PENDING }],
      votes := [⟨0, 1, true, 50⟩], creatorId := 9 } ⟨2, true⟩ 0 true
    { requested := 100, actual := none, status := UStatus.PENDING }
    rfl rfl (by norm_num [donorSum, List.filter])

/-! ## SPENT is reachable only from APPROVED -/

/-- maybeAutoApprove either leaves the state alone or rewrites one PENDING
request to APPROVED. -/
lemma maybeAutoApprove_cases (s : LedgerState) (rid : ℕ) :
    maybeAutoApprove s rid = s ∨
    ∃ r, s.requests[rid]? = some r ∧ r.status = UStatus.PENDING ∧
      maybeAutoApprove s rid =
        { s with requests := s.requests.set rid { r with status := UStatus.APPROVED } } := by
  cases hget : s.requests[rid]? with
  | none => left; simp [maybeAutoApprove, hget]
  | some r =>
    simp only [maybeAutoApprove, hget]
    by_cases hpend : r.status ≠ UStatus.PENDING
    · left; rw [if_pos hpend]
    · rw [if_neg hpend]
      push_neg at hpend
      by_cases hdz : totalDonors s = 0
      · left; rw [if_pos hdz]
      · rw [if_neg hdz]
        by_cases hcond : 1/2 < donorApprovalRate s rid ∨ 1/2 < donationApprovalRate s rid
        · right; exact ⟨r, rfl, hpend, by rw [if_pos hcond]⟩
        · left; rw [if_neg hcond]

/-- C6: a usage request reaches SPENT only through the mark-spent operation
applied to an APPROVED request, and then carries an actual amount bounded
by its requested amount; mark-spent on a non-APPROVED request, or with an
actual amount above the requested amount, returns an error and leaves the
state unchanged. -/
theorem spent_only_from_approved :
    (∀ (s : LedgerState) (op : Op) (rid : ℕ) (r1 : UsageRow),
      (execOp s op).requests[rid]? = some r1 → r1.status = UStatus.SPENT →
      s.requests[rid]?.map UsageRow.status ≠ some UStatus.SPENT →
      ∃ u a hash, op = Op.markSpent u rid a hash ∧
        s.requests[rid]?.map UsageRow.status = some UStatus.APPROVED ∧
        r1.actual = some a ∧ a ≤ r1.requested) ∧
    (∀ (s : LedgerState) (u : User) (rid : ℕ) (a : ℚ) (hash : String) (r : UsageRow),
      s.requests[rid]? = some r →
      (r.status ≠ UStatus.APPROVED ∨ r.requested < a) →
      (∃ e, markSpent s u rid a hash = Except.error e) ∧
        execOp s (Op.markSpent u rid a hash) = s) := by
  constructor
  · intro s op rid r1 hget1 hspent hprior
    cases hap : applyOp s op with
    | error e =>
      exfalso
      have hx : execOp s op = s := by simp [execOp, hap]
      rw [hx] at hget1
      exact hprior (by rw [hget1, Option.map_some', hspent])
    | ok s1 =>
      have hx : execOp s op = s1 := by simp [execOp, hap]
      rw [hx] at hget1
      cases op with
      | create u a =>
        exfalso
        obtain ⟨h0, hrem, rfl⟩ := create_ok s u a s1 hap
        have hget2 : (s.requests ++
            [{ requested := a, actual := none, status := UStatus.PENDING }])[rid]? =
            some r1 := hget1
        by_cases hlt : rid < s.requests.length
        · rw [List.getElem?_append, if_pos hlt] at hget2
          exact hprior (by rw [hget2, Option.map_some', hspent])
        · rw [List.getElem?_append, if_neg hlt] at hget2
          by_cases hz : rid - s.requests.length = 0
          · rw [hz] at hget2
            simp only [List.getElem?_cons_zero, Option.some.injEq] at hget2
            rw [← hget2] at hspent
            cases hspent
          · rw [List.getElem?_eq_none (by simp; omega)] at hget2
            cases hget2
      | vote u rid2 v =>
        have hveq := vote_ok s u rid2 v s1 hap
        rcases maybeAutoApprove_cases
            { s with votes := upsertVote s.votes ⟨rid2, u.id, v, donorSum s u.id⟩ } rid2 with
          hsame | ⟨r2, hg2, hp2, hreq2⟩
        · exfalso
          rw [hveq, hsame] at hget1
          have hget2 : s.requests[rid]? = some r1 := hget1
          exact hprior (by rw [hget2, Option.map_some', hspent])
        · exfalso
          rw [hveq, hreq2] at hget1
          by_cases he : rid2 = rid
          · subst he
            have hlen : rid2 < s.requests.length := (List.getElem?_eq_some.mp hg2).1
            have hget2 : (s.requests.set rid2 { r2 with status := UStatus.APPROVED })[rid2]? =
                some r1 := hget1
            rw [List.getElem?_set_self (h := hlen)] at hget2
            simp only [Option.some.injEq] at hget2
            rw [← hget2] at hspent
            cases hspent
          · have hget2 : (s.requests.set rid2 { r2 with status := UStatus.APPROVED })[rid]? =
                some r1 := hget1
            rw [List.getElem?_set_ne he] at hget2
            exact hprior (by rw [hget2, Option.map_some', hspent])
      | markSpent u rid2 a hash =>
        obtain ⟨r, hg, hstat, h0, hle, rfl⟩ := markSpent_ok s u rid2 a hash s1 hap
        by_cases he : rid2 = rid
        · subst he
          have hlen : rid2 < s.requests.length := (List.getElem?_eq_some.mp hg).1
          have hget2 : (s.requests.set rid2
              { r with status := UStatus.SPENT, actual := some a })[rid2]? = some r1 := hget1
          rw [List.getElem?_set_self (h := hlen)] at hget2
          simp only [Option.some.injEq] at hget2
          refine ⟨u, a, hash, rfl, by rw [hg, Option.map_some', hstat], ?_, ?_⟩
          · rw [← hget2]
          · rw [← hget2]; exact hle
        · exfalso
          have hget2 : (s.requests.set rid2
              { r with status := UStatus.SPENT, actual := some a })[rid]? = some r1 := hget1
          rw [List.getElem?_set_ne he] at hget2
          exact hprior (by rw [hget2, Option.map_some', hspent])
  · intro s u rid a hash r hget hbad
    have herr : ∃ e, markSpent s u rid a hash = Except.error e := by
      simp only [markSpent, hget]
      by_cases h0 : ¬ 0 < a
      · rw [if_pos h0]; exact ⟨_, rfl⟩
      · rw [if_neg h0]
        by_cases hh : hash = ""
        · rw [if_pos hh]; exact ⟨_, rfl⟩
        · rw [if_neg hh]
          by_cases hown : s.creatorId ≠ u.id ∧ u.isAdmin = false
          · rw [if_pos hown]; exact ⟨_, rfl⟩
          · rw [if_neg hown]
            by_cases hstat : r.status ≠ UStatus.APPROVED
            · rw [if_pos hstat]; exact ⟨_, rfl⟩
            · rw [if_neg hstat]
              push_neg at hstat
              rcases hbad with hb | hb
              · exact absurd hstat hb
              · rw [if_pos hb]; exact ⟨_, rfl⟩
    obtain ⟨e, he⟩ := herr
    exact ⟨⟨e, he⟩, by simp [execOp, applyOp, he]⟩

/-- C6 witness: mark-spent on a PENDING request errors and leaves the
state unchanged. -/
theorem spent_only_from_approved_witness :
    (∃ e, markSpent
      { raised := 100, donations := [],
        requests := [{ requested := 10, actual := none, status := UStatus.PENDING }],
        votes := [], creatorId := 1 } ⟨1, false⟩ 0 5 "0xabc" = Except.error e) ∧
    execOp
      { raised := 100, donations := [],
        requests := [{ requested := 10, actual := none, status := UStatus.PENDING }],
        votes := [], creatorId := 1 } (Op.markSpent ⟨1, false⟩ 0 5 "0xabc") =
      { raised := 100, donations := [],
        requests := [{ requested := 10, actual := none, status := UStatus.PENDING }],
        votes := [], creatorId := 1 } :=
  spent_only_from_approved.2
    { raised := 100, donations := [],
      requests := [{ requested := 10, actual := none, status := UStatus.PENDING }],
      votes := [], creatorId := 1 } ⟨1, false⟩ 0 5 "0xabc"
    { requested := 10, actual := none, status := UStatus.PENDING }
    rfl (Or.inl (by intro hc; cases hc))

lemma updReq_same (f : ℕ → ℕ → SolRequest) (cid rid : ℕ) (r : SolRequest) :
    updReq f cid rid r cid rid = r := by
  simp [updReq]

lemma updCamp_same (f : ℕ → SolCampaign) (cid : ℕ) (c : SolCampaign) :
    updCamp f cid c cid = c := by
  simp [updCamp]

lemma solRequest_reset (r : SolRequest) (h : r.executed = false) :
    { r with executed := false } = r := by
  cases r
  simp_all

lemma solCampaign_reset (c : SolCampaign) (amt : ℕ) :
    { c with totalWithdrawn := c.totalWithdrawn + amt - amt } = c := by
  cases c
  simp

lemma updReq_updReq (f : ℕ → ℕ → SolRequest) (cid rid : ℕ) (r1 r2 : SolRequest) :
    updReq (updReq f cid rid r1) cid rid r2 = updReq f cid rid r2 := by
  funext c i
  unfold updReq
  split <;> rfl

lemma updCamp_updCamp (f : ℕ → SolCampaign) (cid : ℕ) (c1 c2 : SolCampaign) :
    updCamp (updCamp f cid c1) cid c2 = updCamp f cid c2 := by
  funext i
  unfold updCamp
  split <;> rfl

lemma updReq_self (f : ℕ → ℕ → SolRequest) (cid rid : ℕ) :
    updReq f cid rid (f cid rid) = f := by
  funext c i
  unfold updReq
  split
  · rename_i h
    rw [h.1, h.2]
  · rfl

lemma updCamp_self (f : ℕ → SolCampaign) (cid : ℕ) :
    updCamp f cid (f cid) = f := by
  funext i
  unfold updCamp
  split
  · rename_i h
    rw [h]
  · rfl

/-- C3: when every guard passes, executeWithdrawal attempts the value
transfer on a state in which the executed flag is already set and
totalWithdrawn already includes the amount; if the transfer fails the call
returns failure with exactly the pre-call state (the manual rollback
restores both fields), and if it succeeds the only further change is the
balance decrease of the transfer itself. -/
theorem executeWithdrawal_atomic (s : CFState) (sender : Addr) (cid rid : ℕ)
    (hex : (s.campaigns cid).existsFlag = true)
    (hcr : sender = (s.campaigns cid).creator)
    (hrex : (s.withdrawalRequests cid rid).existsFlag = true)
    (hnexec : (s.withdrawalRequests cid rid).executed = false)
    (happr : (s.withdrawalRequests cid rid).approvalThreshold ≤
      (s.withdrawalRequests cid rid).approvalsReceived)
    (hbal : (s.withdrawalRequests cid rid).amount ≤ s.balance)
    (hcamp : (s.campaigns cid).totalWithdrawn + (s.withdrawalRequests cid rid).amount ≤
      (s.campaigns cid).pledged) :
    ((executeMidState s cid rid).withdrawalRequests cid rid).executed = true ∧
    ((executeMidState s cid rid).campaigns cid).totalWithdrawn =
      (s.campaigns cid).totalWithdrawn + (s.withdrawalRequests cid rid).amount ∧
    (∀ transferOk : CFState → Bool,
      transferOk (executeMidState s cid rid) = false →
      executeWithdrawal s sender cid rid transferOk = (false, s)) ∧
    (∀ transferOk : CFState → Bool,
      transferOk (executeMidState s cid rid) = true →
      executeWithdrawal s sender cid rid transferOk =
        (true, { executeMidState s cid rid with
          balance := s.balance - (s.withdrawalRequests cid rid).amount })) := by
  refine ⟨by simp [executeMidState, updReq_same], by simp [executeMidState, updCamp_same], ?_, ?_⟩
  · intro transferOk htf
    simp only [executeWithdrawal]
    rw [if_neg (by simp [hex]), if_neg (by simp [hcr]), if_neg (by simp [hrex]),
      if_neg (by simp [hnexec]), if_neg (by omega), if_neg (by omega), if_neg (by omega),
      htf]
    simp only [Bool.false_eq_true, if_false, Prod.mk.injEq, true_and]
    simp only [executeMidState, updReq_same, updCamp_same, updReq_updReq, updCamp_updCamp]
    rw [solRequest_reset (s.withdrawalRequests cid rid) hnexec]
    rw [solCampaign_reset (s.campaigns cid) (s.withdrawalRequests cid rid).amount]
    rw [updReq_self, updCamp_self]
  · intro transferOk htf
    simp only [executeWithdrawal]
    rw [if_neg (by simp [hex]), if_neg (by simp [hcr]), if_neg (by simp [hrex]),
      if_neg (by simp [hnexec]), if_neg (by omega), if_neg (by omega), if_neg (by omega),
      htf]
    simp only [if_true]
    rfl

/-- C3 witness: on the concrete 51-of-51 state a failing transfer leaves
the state exactly as before the call, although the mid-call state had the
executed flag set and the amount added to totalWithdrawn. -/
theorem executeWithdrawal_atomic_witness :
    executeWithdrawal (exState 51) 7 0 0 (fun _ => false) = (false, exState 51) ∧
    ((executeMidState (exState 51) 0 0).withdrawalRequests 0 0).executed = true ∧
    ((executeMidState (exState 51) 0 0).campaigns 0).totalWithdrawn = 0 + 10 :=
  have h := executeWithdrawal_atomic (exState 51) 7 0 0 rfl rfl rfl rfl
    (by decide) (by decide) (by decide)
  ⟨h.2.2.1 (fun _ => false) rfl, h.1, h.2.1⟩

/-- C4: on an existing, not-yet-executed request (and with the value
transfer itself succeeding), executeWithdrawal succeeds iff the caller is
the campaign creator, the accumulated weighted approvals reach the
snapshotted threshold, the contract balance covers the amount and the
campaign's un-withdrawn balance covers the amount; whenever it fails, the
returned state is the unchanged pre-call state. -/
theorem executeWithdrawal_guards (s : CFState) (sender : Addr) (cid rid : ℕ)
    (transferOk : CFState → Bool)
    (hex : (s.campaigns cid).existsFlag = true)
    (hrex : (s.withdrawalRequests cid rid).existsFlag = true)
    (hnexec : (s.withdrawalRequests cid rid).executed = false)
    (hok : ∀ t, transferOk t = true) :
    ((executeWithdrawal s sender cid rid transferOk).1 = true ↔
      (sender = (s.campaigns cid).creator ∧
       (s.withdrawalRequests cid rid).approvalThreshold ≤
         (s.withdrawalRequests cid rid).approvalsReceived ∧
       (s.withdrawalRequests cid rid).amount ≤ s.balance ∧
       (s.campaigns cid).totalWithdrawn + (s.withdrawalRequests cid rid).amount ≤
         (s.campaigns cid).pledged)) ∧
    ((executeWithdrawal s sender cid rid transferOk).1 = false →
      (executeWithdrawal s sender cid rid transferOk).2 = s) := by
  simp only [executeWithdrawal]
  rw [if_neg (by simp [hex])]
  by_cases h1 : sender ≠ (s.campaigns cid).creator
  · rw [if_pos h1]
    exact ⟨iff_of_false (by simp) (fun hc => h1 hc.1), fun _ => rfl⟩
  · rw [if_neg h1]
    push_neg at h1
    rw [if_neg (by simp [hrex]), if_neg (by simp [hnexec])]
    by_cases h2 : (s.withdrawalRequests cid rid).approvalsReceived <
        (s.withdrawalRequests cid rid).approvalThreshold
    · rw [if_pos h2]
      exact ⟨iff_of_false (by simp) (fun hc => absurd hc.2.1 (by omega)), fun _ => rfl⟩
    · rw [if_neg h2]
      by_cases h3 : s.balance < (s.withdrawalRequests cid rid).amount
      · rw [if_pos h3]
        exact ⟨iff_of_false (by simp) (fun hc => absurd hc.2.2.1 (by omega)), fun _ => rfl⟩
      · rw [if_neg h3]
        by_cases h4 : (s.campaigns cid).pledged <
            (s.campaigns cid).totalWithdrawn + (s.withdrawalRequests cid rid).amount
        · rw [if_pos h4]
          exact ⟨iff_of_false (by simp) (fun hc => absurd hc.2.2.2 (by omega)), fun _ => rfl⟩
        · rw [if_neg h4, hok _]
          simp only [if_true]
          exact ⟨iff_of_true trivial ⟨h1, by omega, by omega, by omega⟩,
            fun hc => by simp at hc⟩

/-- C4 witness (Scenario C): threshold 51 of a pledged 100; 51 approvals
execute, 50 approvals fail and leave the state unchanged. -/
theorem executeWithdrawal_guards_witness :
    (executeWithdrawal (exState 51) 7 0 0 (fun _ => true)).1 = true ∧
    (executeWithdrawal (exState 50) 7 0 0 (fun _ => true)).1 = false ∧
    (executeWithdrawal (exState 50) 7 0 0 (fun _ => true)).2 = exState 50 := by
  have h51 := executeWithdrawal_guards (exState 51) 7 0 0 (fun _ => true) rfl rfl rfl
    (fun _ => rfl)
  have h50 := executeWithdrawal_guards (exState 50) 7 0 0 (fun _ => true) rfl rfl rfl
    (fun _ => rfl)
  have hfalse : (executeWithdrawal (exState 50) 7 0 0 (fun _ => true)).1 = false := by
    cases hb : (executeWithdrawal (exState 50) 7 0 0 (fun _ => true)).1
    · rfl
    · exact absurd (h50.1.mp hb).2.1 (by decide)
  exact ⟨h51.1.mpr ⟨rfl, by decide, by decide, by decide⟩, hfalse, h50.2 hfalse⟩

/-! ## One binding vote per address vs off-chain upsert -/

/-- C7: on the authoritative path an address that has already voted on a
withdrawal request has both approveWithdrawal and rejectWithdrawal revert
with no state change, and any successful vote marks the sender as having
voted (so a second cast of either kind fails); on the off-chain path a
donor's vote is an upsert keyed by (request, donor): starting from a store
with at most one row for the key, the store afterwards has exactly one row
for the key and that row carries the later vote and weight. -/
theorem vote_single_cast_and_upsert :
    (∀ (s : CFState) (sender : Addr) (cid rid : ℕ),
      (s.withdrawalRequests cid rid).hasVoted sender = true →
      approveWithdrawal s sender cid rid = (false, s) ∧
      rejectWithdrawal s sender cid rid = (false, s)) ∧
    (∀ (s : CFState) (sender : Addr) (cid rid : ℕ) (s1 : CFState),
      approveWithdrawal s sender cid rid = (true, s1) →
      (s1.withdrawalRequests cid rid).hasVoted sender = true) ∧
    (∀ (s : CFState) (sender : Addr) (cid rid : ℕ) (s1 : CFState),
      rejectWithdrawal s sender cid rid = (true, s1) →
      (s1.withdrawalRequests cid rid).hasVoted sender = true) ∧
    (∀ (votes : List VoteRow) (nv : VoteRow),
      votes.countP (fun v => v.requestId = nv.requestId ∧ v.donorId = nv.donorId) ≤ 1 →
      (upsertVote votes nv).countP
        (fun v => v.requestId = nv.requestId ∧ v.donorId = nv.donorId) = 1 ∧
      ∀ v ∈ upsertVote votes nv, v.requestId = nv.requestId → v.donorId = nv.donorId →
        v.vote = nv.vote ∧ v.weight = nv.weight) := by
  refine ⟨?_, ?_, ?_, ?_⟩
  · intro s sender cid rid h
    constructor
    · simp only [approveWithdrawal]
      repeat' split
      all_goals rfl
    · simp only [rejectWithdrawal]
      repeat' split
      all_goals rfl
  · intro s sender cid rid s1 h
    simp only [approveWithdrawal] at h
    split at h
    · simp at h
    split at h
    · simp at h
    split at h
    · simp at h
    split at h
    · simp at h
    split at h
    · simp at h
    simp only [Prod.mk.injEq, true_and] at h
    subst h
    simp [updReq_same, Function.update_same]
  · intro s sender cid rid s1 h
    simp only [rejectWithdrawal] at h
    split at h
    · simp at h
    split at h
    · simp at h
    split at h
    · simp at h
    split at h
    · simp at h
    split at h
    · simp at h
    simp only [Prod.mk.injEq, true_and] at h
    subst h
    simp [updReq_same, Function.update_same]
  · intro votes nv huniq
    by_cases hany : votes.any
        (fun v => v.requestId = nv.requestId ∧ v.donorId = nv.donorId) = true
    · rw [upsertVote, if_pos hany]
      constructor
      · rw [List.countP_map]
        have hcomp : ((fun v : VoteRow =>
            decide (v.requestId = nv.requestId ∧ v.donorId = nv.donorId)) ∘
            (fun v : VoteRow =>
              if v.requestId = nv.requestId ∧ v.donorId = nv.donorId then
                { v with vote := nv.vote, weight := nv.weight }
              else v)) =
            (fun v : VoteRow =>
              decide (v.requestId = nv.requestId ∧ v.donorId = nv.donorId)) := by
          funext v
          by_cases hv : v.requestId = nv.requestId ∧ v.donorId = nv.donorId
          · rw [Function.comp_apply, if_pos hv]
          · rw [Function.comp_apply, if_neg hv]
        rw [hcomp]
        obtain ⟨w, hw, hpw⟩ := List.any_eq_true.mp hany
        have hpos : 0 < votes.countP
            (fun v => v.requestId = nv.requestId ∧ v.donorId = nv.donorId) :=
          List.countP_pos_iff.mpr ⟨w, hw, hpw⟩
        omega
      · intro v hv hr hd
        obtain ⟨w, hw, hwv⟩ := List.mem_map.mp hv
        by_cases hkey : w.requestId = nv.requestId ∧ w.donorId = nv.donorId
        · rw [if_pos hkey] at hwv
          rw [← hwv]
          exact ⟨rfl, rfl⟩
        · rw [if_neg hkey] at hwv
          rw [hwv] at hkey
          exact absurd ⟨hr, hd⟩ hkey
    · rw [upsertVote, if_neg hany]
      have hzero : votes.countP
          (fun v => v.requestId = nv.requestId ∧ v.donorId = nv.donorId) = 0 := by
        refine List.countP_eq_zero.mpr ?_
        intro v hv hp
        exact hany (List.any_eq_true.mpr ⟨v, hv, hp⟩)
      constructor
      · rw [List.countP_append, hzero]
        have hp : (fun v : VoteRow =>
            decide (v.requestId = nv.requestId ∧ v.donorId = nv.donorId)) nv = true := by
          simp
        simp [List.countP_cons, hp]
      · intro v hv hr hd
        rcases List.mem_append.mp hv with hmem | hmem
        · exfalso
          exact hany (List.any_eq_true.mpr ⟨v, hmem, by simp [hr, hd]⟩)
        · simp only [List.mem_singleton] at hmem
          rw [hmem]
          exact ⟨rfl, rfl⟩

/-- C7 witness: address 5 has already voted, so both calls revert
unchanged; re-voting off-chain on the key (0, 1) leaves one row carrying
the later (false) vote. -/
theorem vote_single_cast_and_upsert_witness :
    approveWithdrawal
      { campaigns := fun _ => exCamp, contributions := fun _ a => if a = 5 then 20 else 0,
        withdrawalRequests := fun _ _ =>
          { exReq 0 with hasVoted := fun a => a = 5 }, balance := 100 } 5 0 0 =
      (false,
      { campaigns := fun _ => exCamp, contributions := fun _ a => if a = 5 then 20 else 0,
        withdrawalRequests := fun _ _ =>
          { exReq 0 with hasVoted := fun a => a = 5 }, balance := 100 }) ∧
    (upsertVote [⟨0, 1, true, 10⟩] ⟨0, 1, false, 10⟩).countP
      (fun v => v.requestId = 0 ∧ v.donorId = 1) = 1 := by
  have h1 := (vote_single_cast_and_upsert.1
    { campaigns := fun _ => exCamp, contributions := fun _ a => if a = 5 then 20 else 0,
      withdrawalRequests := fun _ _ =>
        { exReq 0 with hasVoted := fun a => a = 5 }, balance := 100 } 5 0 0 (by decide)).1
  have h2 := (vote_single_cast_and_upsert.2.2.2 [⟨0, 1, true, 10⟩] ⟨0, 1, false, 10⟩
    (by decide)).1
  exact ⟨h1, h2⟩

/-- C5 counterexample: on a campaign with the goal reached and not
withdrawn, checkWithdrawalEligibility reports canWithdraw = false — both
before the deadline (t = 1000) and after it (t = 3000) — while the claim
requires true; canWithdrawFunds does report true. -/
theorem eligibility_checker_cex :
    eligCexCampaign.goal ≤ eligCexCampaign.pledged ∧
    eligCexCampaign.withdrawn = false ∧
    (checkWithdrawalEligibility eligCexCampaign 1000).canWithdraw = false ∧
    (checkWithdrawalEligibility eligCexCampaign 3000).canWithdraw = false ∧
    (canWithdrawFunds eligCexCampaign 1000).canWithdraw = true := by
  refine ⟨by norm_num [eligCexCampaign], rfl, rfl, rfl, ?_⟩
  simp [canWithdrawFunds, eligCexCampaign]
  norm_num

/-- C5 as amended: canWithdrawFunds satisfies the claimed rule — its
verdict is (raised ≥ goal and not withdrawn), the deadline is not required,
and the goalReached / deadlinePassed / isWithdrawn sub-conditions are
exposed alongside — while checkWithdrawalEligibility, which also requires
the deadline and reads the absent amountRaised / isWithdrawn properties,
reports canWithdraw = false and goalReached = false for every campaign and
an undefined isWithdrawn. -/
theorem eligibility_checker_amended (c : FetchedCampaign) (nowMs : ℤ) :
    (canWithdrawFunds c nowMs).canWithdraw = (decide (c.goal ≤ c.pledged) && !c.withdrawn) ∧
    (canWithdrawFunds c nowMs).goalReached = decide (c.goal ≤ c.pledged) ∧
    (canWithdrawFunds c nowMs).deadlinePassed = decide (c.deadlineMs ≤ nowMs) ∧
    (canWithdrawFunds c nowMs).isWithdrawn = c.withdrawn ∧
    (checkWithdrawalEligibility c nowMs).canWithdraw = false ∧
    (checkWithdrawalEligibility c nowMs).goalReached = false ∧
    (checkWithdrawalEligibility c nowMs).isWithdrawn = none :=
  ⟨rfl, rfl, rfl, rfl, rfl, rfl, rfl⟩

/-- C8: for every synced campaign the mirrored fields are overwritten with
the fetched values, and the derived status is: withdrawn ⇒ completed; else
deadline passed ⇒ (goal met ⇒ completed, else failed); else active. -/
theorem syncCampaignStatuses_derivation (bc : ChainCampaign) (nowMs : ℤ)
    (row : MirrorRow) (h : bc.existsFlag = true) :
    (syncOne bc nowMs row).is_withdrawn = bc.withdrawn ∧
    (syncOne bc nowMs row).blockchain_goal = (bc.goal : ℚ) / 10 ^ 18 ∧
    (syncOne bc nowMs row).current_amount = (bc.pledged : ℚ) / 10 ^ 18 ∧
    (syncOne bc nowMs row).deadlineMs = (bc.deadline : ℤ) * 1000 ∧
    (syncOne bc nowMs row).status =
      (if bc.withdrawn then "completed"
       else if (bc.deadline : ℤ) * 1000 < nowMs then
         (if bc.goal ≤ bc.pledged then "completed" else "failed")
       else "active") := by
  have hgm : ((bc.goal : ℚ) / 10 ^ 18 ≤ (bc.pledged : ℚ) / 10 ^ 18) ↔
      bc.goal ≤ bc.pledged := by
    rw [div_le_div_iff_of_pos_right (by positivity)]
    exact Nat.cast_le
  simp [syncOne, h, hgm]

/-- C8 witness: an existing, not-withdrawn campaign whose deadline
(t = 1000 ms) has passed by t = 5000 ms with 40 of 100 wei pledged is
mirrored as failed. -/
theorem syncCampaignStatuses_derivation_witness :
    (syncOne syncCexChain 5000 syncCexRow).status = "failed" :=
  ((syncCampaignStatuses_derivation syncCexChain 5000 syncCexRow rfl).2.2.2.2).trans
    (by decide)

end Crowdfunding
